import Mathlib

/-!
# caldav-tasks: verification of the local store schema and its migrations

Shallow embedding of the SQL schema and versioned migration catalog declared in
`src/src-tauri/src/main.rs`, and of the tray-state commands declared in
`src/src-tauri/src/tray.rs`. SQL DDL/DML is embedded as structured statements
over a list-of-tables database state; machine behavior (constraint checks,
cascading foreign-key deletes) is given an executable semantics.
-/

namespace CaldavTasks

/-- An SQL value as stored by SQLite: NULL, a text, or an integer. -/
inductive Value where
  | null
  | text (s : String)
  | int (n : Int)
deriving DecidableEq

/-- A column declaration: name, NOT NULL, UNIQUE, PRIMARY KEY, DEFAULT, and an
optional `CHECK (name = v)` clause (the only CHECK form appearing in the source). -/
structure Column where
  name : String
  notNull : Bool := false
  unique : Bool := false
  primaryKey : Bool := false
  dflt : Option Value := none
  checkEq : Option Value := none
deriving DecidableEq

/-- `FOREIGN KEY (col) REFERENCES refTable(refCol)` with an ON DELETE CASCADE flag. -/
structure ForeignKey where
  col : String
  refTable : String
  refCol : String
  onDeleteCascade : Bool
deriving DecidableEq

/-- A table declaration: name, columns in declaration order, foreign keys. -/
structure TableDef where
  name : String
  cols : List Column
  fks : List ForeignKey := []
deriving DecidableEq

/-- A row is a list of values, positionally aligned with the table's columns. -/
abbrev Row := List Value

/-- A table: its declaration plus its current rows. -/
structure Table where
  tdef : TableDef
  rows : List Row
deriving DecidableEq

/-- The database state: the list of existing tables, in creation order. -/
abbrev DbState := List Table

/-- Index of the column named `n`, in declaration order. -/
def colIdx (cols : List Column) (n : String) : Option Nat :=
  match cols with
  | [] => none
  | c :: cs => if c.name == n then some 0 else (colIdx cs n).map (· + 1)

/-- The value a row holds in the column named `n`. -/
def getVal (cols : List Column) (r : Row) (n : String) : Option Value :=
  (colIdx cols n).bind (fun i => r.get? i)

/-- A single value satisfies a column's NOT NULL and CHECK constraints.
SQL CHECK passes when the predicate evaluates to true or to NULL. -/
def fieldOk (c : Column) (v : Value) : Bool :=
  (!c.notNull || !(v == Value.null)) &&
    (match c.checkEq with
     | none => true
     | some w => (v == Value.null) || (v == w))

/-- A row satisfies a column list: right arity, every field constraint holds. -/
def rowOk (cols : List Column) (r : Row) : Bool :=
  (r.length == cols.length) && (List.zip cols r).all (fun p => fieldOk p.1 p.2)

/-- No value occurs twice in the list. -/
def nodupBool : List Value → Bool
  | [] => true
  | v :: vs => !(vs.contains v) && nodupBool vs

/-- The non-NULL values a table's rows hold in column `n`
(SQL UNIQUE constraints compare only non-NULL values). -/
def colValues (cols : List Column) (rows : List Row) (n : String) : List Value :=
  (rows.filterMap (fun r => getVal cols r n)).filter (fun v => !(v == Value.null))

/-- A table satisfies its own declaration: every row satisfies the column
constraints, and every UNIQUE / PRIMARY KEY column holds pairwise distinct
non-NULL values. -/
def tableOk (t : Table) : Bool :=
  t.rows.all (fun r => rowOk t.tdef.cols r) &&
  t.tdef.cols.all (fun c =>
    !(c.unique || c.primaryKey) || nodupBool (colValues t.tdef.cols t.rows c.name))

/-- Look up a table by name. -/
def findTable (db : DbState) (n : String) : Option Table :=
  db.find? (fun t => t.tdef.name == n)

/-- Replace the rows of the table named `n`. -/
def setRows (db : DbState) (n : String) (rows : List Row) : DbState :=
  db.map (fun t => if t.tdef.name == n then { tdef := t.tdef, rows := rows } else t)

/-- A row satisfies one foreign key: a NULL value references nothing; a non-NULL
value must occur in the referenced column of the referenced table. -/
def fkRowOk (db : DbState) (cols : List Column) (fk : ForeignKey) (r : Row) : Bool :=
  match getVal cols r fk.col with
  | some Value.null => true
  | some v =>
    match findTable db fk.refTable with
    | some p => p.rows.any (fun pr => getVal p.tdef.cols pr fk.refCol == some v)
    | none => false
  | none => false

/-- The whole database satisfies its schema: every table satisfies its own
declaration and all foreign keys resolve. -/
def dbOk (db : DbState) : Bool :=
  db.all (fun t => tableOk t &&
    t.tdef.fks.all (fun fk => t.rows.all (fun r => fkRowOk db t.tdef.cols fk r)))

/-- The SQL statement forms used by the migration scripts in the source. -/
inductive Stmt where
  | createTableIfNotExists (t : TableDef)
  | createTable (t : TableDef)
  | createIndexIfNotExists (idx table c : String)
  | createIndex (idx table c : String)
  | insertOrIgnore (table : String) (vals : List (String × Value))
  | insertSelectAll (dst src : String)
  | dropTable (table : String)
  | renameTable (oldName newName : String)
  | addColumn (table : String) (c : Column)

/-- Build a full row from explicitly given column values, filling the remaining
columns with their DEFAULT (or NULL when none is declared). -/
def mkRow (cols : List Column) (vals : List (String × Value)) : Row :=
  cols.map (fun c =>
    match vals.lookup c.name with
    | some v => v
    | none => c.dflt.getD Value.null)

/-- Execute one statement. `none` is a failed statement (aborts the migration).
`CREATE INDEX` only affects query performance, never the logical contents, so
its semantics on the logical database state is the identity. -/
def execStmt (db : DbState) : Stmt → Option DbState
  | .createTableIfNotExists t =>
    if (findTable db t.name).isSome then some db
    else some (db ++ [{ tdef := t, rows := [] }])
  | .createTable t =>
    if (findTable db t.name).isSome then none
    else some (db ++ [{ tdef := t, rows := [] }])
  | .createIndexIfNotExists _ _ _ => some db
  | .createIndex _ _ _ => some db
  | .insertOrIgnore tn vals =>
    match findTable db tn with
    | none => none
    | some t =>
      let row := mkRow t.tdef.cols vals
      if tableOk { tdef := t.tdef, rows := t.rows ++ [row] } then
        some (setRows db tn (t.rows ++ [row]))
      else some db
  | .insertSelectAll dst src =>
    match findTable db src, findTable db dst with
    | some s, some d =>
      if tableOk { tdef := d.tdef, rows := d.rows ++ s.rows } then
        some (setRows db dst (d.rows ++ s.rows))
      else none
    | _, _ => none
  | .dropTable tn =>
    if (findTable db tn).isSome then
      some (db.filter (fun t => !(t.tdef.name == tn)))
    else none
  | .renameTable o n =>
    match findTable db o with
    | none => none
    | some _ =>
      if (findTable db n).isSome then none
      else some (db.map (fun t =>
        if t.tdef.name == o then
          { tdef := { t.tdef with name := n }, rows := t.rows }
        else t))
  | .addColumn tn c =>
    match findTable db tn with
    | none => none
    | some _ =>
      some (db.map (fun t =>
        if t.tdef.name == tn then
          { tdef := { t.tdef with cols := t.tdef.cols ++ [c] },
            rows := t.rows.map (fun r => r ++ [c.dflt.getD Value.null]) }
        else t))

/-- Execute a statement list left to right; any failure aborts. -/
def execStmts (db : DbState) : List Stmt → Option DbState
  | [] => some db
  | s :: rest =>
    match execStmt db s with
    | none => none
    | some db2 => execStmts db2 rest

/-! ## The concrete schema, translated from the CREATE TABLE statements -/

/-- Plain nullable column. -/
def col (n : String) : Column := { name := n }

/-- `NOT NULL` column. -/
def colNN (n : String) : Column := { name := n, notNull := true }

/-- `PRIMARY KEY NOT NULL` column. -/
def colPK (n : String) : Column := { name := n, notNull := true, primaryKey := true }

/-- `NOT NULL DEFAULT v` column. -/
def colNNd (n : String) (v : Value) : Column := { name := n, notNull := true, dflt := some v }

/-- Nullable column with a DEFAULT. -/
def colD (n : String) (v : Value) : Column := { name := n, dflt := some v }

/-- `accounts` table (migration 1). -/
def accountsDef : TableDef :=
  { name := "accounts",
    cols := [colPK "id", colNN "name", colNN "server_url", colNN "username",
             colNN "password", col "server_type", col "last_sync",
             colNNd "is_active" (Value.int 1)] }

/-- `calendars` table (migration 1): `account_id` is declared NOT NULL. -/
def calendarsDef : TableDef :=
  { name := "calendars",
    cols := [colPK "id", colNN "account_id", colNN "display_name", colNN "url",
             col "ctag", col "sync_token", col "color", col "icon",
             col "supported_components"],
    fks := [{ col := "account_id", refTable := "accounts", refCol := "id",
              onDeleteCascade := true }] }

/-- The two foreign keys of the `tasks` table (identical in migrations 1 and 2). -/
def tasksFks : List ForeignKey :=
  [{ col := "account_id", refTable := "accounts", refCol := "id", onDeleteCascade := true },
   { col := "calendar_id", refTable := "calendars", refCol := "id", onDeleteCascade := true }]

/-- `tasks` columns as created by migration 1:
`account_id` and `calendar_id` are NOT NULL. -/
def tasksColsV1 : List Column :=
  [colPK "id",
   { name := "uid", notNull := true, unique := true },
   col "etag", col "href", colNN "title",
   colNNd "description" (Value.text ""),
   colNNd "completed" (Value.int 0),
   col "completed_at", col "tags", col "category_id",
   colNNd "priority" (Value.text "none"),
   col "start_date", col "start_date_all_day", col "due_date", col "due_date_all_day",
   colNN "created_at", colNN "modified_at", col "reminders",
   colNNd "subtasks" (Value.text "[]"),
   col "parent_uid", colD "is_collapsed" (Value.int 0),
   colNN "sort_order", colNN "account_id", colNN "calendar_id",
   colNNd "synced" (Value.int 0), colD "local_only" (Value.int 0)]

/-- `tasks` table as created by migration 1. -/
def tasksDefV1 : TableDef := { name := "tasks", cols := tasksColsV1, fks := tasksFks }

/-- `tasks_new` columns as created by migration 2: identical to migration 1
except `account_id` and `calendar_id` lose the NOT NULL constraint. -/
def tasksColsV2 : List Column :=
  [colPK "id",
   { name := "uid", notNull := true, unique := true },
   col "etag", col "href", colNN "title",
   colNNd "description" (Value.text ""),
   colNNd "completed" (Value.int 0),
   col "completed_at", col "tags", col "category_id",
   colNNd "priority" (Value.text "none"),
   col "start_date", col "start_date_all_day", col "due_date", col "due_date_all_day",
   colNN "created_at", colNN "modified_at", col "reminders",
   colNNd "subtasks" (Value.text "[]"),
   col "parent_uid", colD "is_collapsed" (Value.int 0),
   colNN "sort_order", col "account_id", col "calendar_id",
   colNNd "synced" (Value.int 0), colD "local_only" (Value.int 0)]

/-- `tasks_new` table as created by migration 2. -/
def tasksNewDef : TableDef := { name := "tasks_new", cols := tasksColsV2, fks := tasksFks }

/-- The `tasks` table after all three migrations: the migration-2 columns,
renamed to `tasks`, plus the nullable `url` column added by migration 3. -/
def tasksDefV3 : TableDef := { name := "tasks", cols := tasksColsV2 ++ [col "url"], fks := tasksFks }

/-- `tags` table (migration 1). -/
def tagsDef : TableDef :=
  { name := "tags",
    cols := [colPK "id", colNN "name", colNN "color", col "icon"] }

/-- `pending_deletions` table (migration 1): all four columns NOT NULL,
`uid` primary key. -/
def pendingDeletionsDef : TableDef :=
  { name := "pending_deletions",
    cols := [colPK "uid", colNN "href", colNN "account_id", colNN "calendar_id"] }

/-- `ui_state` table (migration 1): `id INTEGER PRIMARY KEY CHECK (id = 1)`.
An INTEGER PRIMARY KEY is SQLite's rowid alias, so stored rows always carry an
actual integer id (never NULL), which the CHECK then forces to equal 1. -/
def uiStateDef : TableDef :=
  { name := "ui_state",
    cols := [{ name := "id", notNull := true, primaryKey := true,
               checkEq := some (Value.int 1) },
             col "active_account_id", col "active_calendar_id", col "active_tag_id",
             col "selected_task_id",
             colNNd "search_query" (Value.text ""),
             colNNd "sort_mode" (Value.text "manual"),
             colNNd "sort_direction" (Value.text "asc"),
             colNNd "show_completed_tasks" (Value.int 1),
             colNNd "is_editor_open" (Value.int 0)] }

/-! ## The migration catalog, translated statement by statement from `main` -/

/-- Migration kind, as in `tauri_plugin_sql::MigrationKind`. -/
inductive MigrationKind where
  | Up
  | Down
deriving DecidableEq

/-- A migration: version, description, SQL script, kind. -/
structure Migration where
  version : Nat
  description : String
  sql : List Stmt
  kind : MigrationKind

/-- Migration 1, `create_initial_tables`. -/
def migration1 : Migration :=
  { version := 1,
    description := "create_initial_tables",
    sql := [.createTableIfNotExists accountsDef,
            .createTableIfNotExists calendarsDef,
            .createTableIfNotExists tasksDefV1,
            .createTableIfNotExists tagsDef,
            .createTableIfNotExists pendingDeletionsDef,
            .createTableIfNotExists uiStateDef,
            .insertOrIgnore "ui_state" [("id", Value.int 1)],
            .createIndexIfNotExists "idx_tasks_calendar_id" "tasks" "calendar_id",
            .createIndexIfNotExists "idx_tasks_account_id" "tasks" "account_id",
            .createIndexIfNotExists "idx_tasks_parent_uid" "tasks" "parent_uid",
            .createIndexIfNotExists "idx_tasks_uid" "tasks" "uid",
            .createIndexIfNotExists "idx_calendars_account_id" "calendars" "account_id"],
    kind := .Up }

/-- Migration 2, `make_task_account_calendar_nullable`: recreate `tasks` with
nullable `account_id` / `calendar_id`, copy all rows, drop, rename. -/
def migration2 : Migration :=
  { version := 2,
    description := "make_task_account_calendar_nullable",
    sql := [.createTable tasksNewDef,
            .insertSelectAll "tasks_new" "tasks",
            .dropTable "tasks",
            .renameTable "tasks_new" "tasks",
            .createIndex "idx_tasks_calendar_id" "tasks" "calendar_id",
            .createIndex "idx_tasks_account_id" "tasks" "account_id",
            .createIndex "idx_tasks_parent_uid" "tasks" "parent_uid",
            .createIndex "idx_tasks_uid" "tasks" "uid"],
    kind := .Up }

/-- Migration 3, `add_url_field_to_tasks`. -/
def migration3 : Migration :=
  { version := 3,
    description := "add_url_field_to_tasks",
    sql := [.addColumn "tasks" (col "url")],
    kind := .Up }

/-- The migration catalog passed to
`Builder.default().add_migrations("sqlite:caldav-tasks.db", migrations)`. -/
def migrations : List Migration := [migration1, migration2, migration3]

/-! ## The migration engine -/

/-- The store: its database plus the currently recorded schema version. -/
structure StoreState where
  db : DbState
  version : Nat
deriving DecidableEq

/-- Modelled from the spec: the migration engine itself lives in the
`tauri_plugin_sql` crate, outside this repository; §4.1 gives its contract:
"apply every migration whose version exceeds the store's currently recorded
version, in ascending order", one transaction per migration, recording each
applied migration's version. -/
def catchUp : List Migration → StoreState → Option StoreState
  | [], s => some s
  | m :: ms, s =>
    if s.version < m.version then
      match execStmts s.db m.sql with
      | none => none
      | some db2 => catchUp ms { db := db2, version := m.version }
    else catchUp ms s

/-- Database state as reached after the first `n` migrations, starting from an
empty store. -/
def dbAt (n : Nat) : Option DbState :=
  (catchUp (migrations.take n) { db := [], version := 0 }).map (fun s => s.db)

/-- The column of `td` named `n`. -/
def colByName (td : TableDef) (n : String) : Option Column :=
  td.cols.find? (fun c => c.name == n)

/-- Migration 2's column transformation: drop NOT NULL on `account_id` and
`calendar_id`, leave every other column untouched. -/
def relaxNullable (c : Column) : Column :=
  if c.name == "account_id" || c.name == "calendar_id" then
    { c with notNull := false }
  else c

/-- C1: the migration catalog is exactly three forward (Up) migrations with
strictly increasing versions 1, 2, 3; migration 1 creates the six tables with
`tasks.account_id` / `tasks.calendar_id` NOT NULL, migration 2 relaxes exactly
those two columns to nullable, and migration 3 appends a nullable `url` column
to `tasks`. -/
theorem c1_migration_catalog :
    migrations.map Migration.version = [1, 2, 3] ∧
    List.Chain' (fun a b => a < b) (migrations.map Migration.version) ∧
    (∀ m ∈ migrations, m.kind = MigrationKind.Up) ∧
    (dbAt 1).map (fun d => d.map (fun t => t.tdef.name)) =
      some ["accounts", "calendars", "tasks", "tags", "pending_deletions", "ui_state"] ∧
    ((dbAt 1).bind (fun d => findTable d "tasks")).map (fun t => t.tdef) = some tasksDefV1 ∧
    (colByName tasksDefV1 "account_id").map Column.notNull = some true ∧
    (colByName tasksDefV1 "calendar_id").map Column.notNull = some true ∧
    tasksColsV2 = tasksColsV1.map relaxNullable ∧
    ((dbAt 2).bind (fun d => findTable d "tasks")).map (fun t => t.tdef.cols) =
      some (tasksColsV1.map relaxNullable) ∧
    (colByName tasksNewDef "account_id").map Column.notNull = some false ∧
    (colByName tasksNewDef "calendar_id").map Column.notNull = some false ∧
    ((dbAt 3).bind (fun d => findTable d "tasks")).map (fun t => t.tdef.cols) =
      some (tasksColsV1.map relaxNullable ++ [col "url"]) ∧
    (colByName tasksDefV3 "url").map Column.notNull = some false := by
  refine ⟨rfl, ?_, ?_, rfl, rfl, rfl, rfl, rfl, rfl, rfl, rfl, rfl, rfl⟩
  · show List.Chain' (fun a b => a < b) [1, 2, 3]
    simp [List.chain'_cons]
  intro m hm
  simp only [migrations, List.mem_cons, List.not_mem_nil, or_false] at hm
  rcases hm with h | h | h <;> subst h <;> rfl

/-! ## C2: idempotence of migration catch-up -/

/-- The recorded version never decreases during catch-up. -/
theorem catchUp_version_le (ms : List Migration) (s t : StoreState)
    (h : catchUp ms s = some t) : s.version ≤ t.version := by
  induction ms generalizing s with
  | nil =>
    simp only [catchUp, Option.some.injEq] at h
    exact h ▸ Nat.le_refl _
  | cons m ms ih =>
    simp only [catchUp] at h
    by_cases hv : s.version < m.version
    · rw [if_pos hv] at h
      cases hdb : execStmts s.db m.sql with
      | none => rw [hdb] at h; cases h
      | some db2 =>
        rw [hdb] at h
        exact Nat.le_trans (Nat.le_of_lt hv) (ih _ h)
    · rw [if_neg hv] at h
      exact ih _ h

/-- After a successful catch-up, the recorded version dominates the version of
every migration in the list. -/
theorem catchUp_version_bound (ms : List Migration) (s t : StoreState)
    (h : catchUp ms s = some t) : ∀ m ∈ ms, m.version ≤ t.version := by
  induction ms generalizing s with
  | nil => intro m hm; cases hm
  | cons m0 ms ih =>
    intro m hm
    simp only [catchUp] at h
    by_cases hv : s.version < m0.version
    · rw [if_pos hv] at h
      cases hdb : execStmts s.db m0.sql with
      | none => rw [hdb] at h; cases h
      | some db2 =>
        rw [hdb] at h
        rcases List.mem_cons.mp hm with h1 | h1
        · subst h1
          exact catchUp_version_le ms _ t h
        · exact ih _ h m h1
    · rw [if_neg hv] at h
      rcases List.mem_cons.mp hm with h1 | h1
      · subst h1
        exact Nat.le_trans (Nat.le_of_not_lt hv) (catchUp_version_le ms _ t h)
      · exact ih _ h m h1

/-- Catch-up against a store already at or past every catalog version applies
no migration and changes nothing. -/
theorem catchUp_noop (ms : List Migration) (s : StoreState)
    (h : ∀ m ∈ ms, m.version ≤ s.version) : catchUp ms s = some s := by
  induction ms with
  | nil => rfl
  | cons m ms ih =>
    simp only [catchUp]
    rw [if_neg (Nat.not_lt.mpr (h m (List.mem_cons_self m ms)))]
    exact ih (fun m2 hm2 => h m2 (List.mem_cons_of_mem m hm2))

/-- C2: migration catch-up is idempotent: a second run from the state a first
successful run produced is a no-op returning that same state; in particular a
store already recorded at version 3 is left untouched by the shipped catalog. -/
theorem c2_catchup_idempotent (ms : List Migration) (s t : StoreState)
    (h : catchUp ms s = some t) :
    catchUp ms t = some t ∧
    ∀ db : DbState, catchUp migrations { db := db, version := 3 } =
      some { db := db, version := 3 } := by
  constructor
  · exact catchUp_noop ms t (catchUp_version_bound ms s t h)
  · intro db
    apply catchUp_noop
    intro m hm
    simp only [migrations, List.mem_cons, List.not_mem_nil, or_false] at hm
    rcases hm with h1 | h1 | h1 <;> subst h1 <;>
      simp [migration1, migration2, migration3]

/-- The store produced by running the whole catalog on an empty database. -/
def storeAfterBoot : StoreState :=
  (catchUp migrations { db := [], version := 0 }).getD { db := [], version := 0 }

/-- Witness for C2 at a concrete input: booting an empty store succeeds, and a
second catch-up run is a no-op on the booted store. -/
theorem c2_catchup_idempotent_witness :
    catchUp migrations { db := [], version := 0 } = some storeAfterBoot ∧
    catchUp migrations storeAfterBoot = some storeAfterBoot :=
  ⟨rfl, (c2_catchup_idempotent migrations { db := [], version := 0 } storeAfterBoot rfl).1⟩

/-! ## C3: migration 2 recreates `tasks`, preserving all rows -/

theorem relaxNullable_name (c : Column) : (relaxNullable c).name = c.name := by
  unfold relaxNullable; split <;> rfl

theorem relaxNullable_unique (c : Column) : (relaxNullable c).unique = c.unique := by
  unfold relaxNullable; split <;> rfl

theorem relaxNullable_primaryKey (c : Column) : (relaxNullable c).primaryKey = c.primaryKey := by
  unfold relaxNullable; split <;> rfl

theorem relaxNullable_checkEq (c : Column) : (relaxNullable c).checkEq = c.checkEq := by
  unfold relaxNullable; split <;> rfl

/-- Dropping NOT NULL only weakens the per-field constraint. -/
theorem fieldOk_relax (c : Column) (v : Value) (h : fieldOk c v = true) :
    fieldOk (relaxNullable c) v = true := by
  unfold relaxNullable
  split
  · unfold fieldOk at h ⊢
    simp only [Bool.and_eq_true] at h
    simp [h.2]
  · exact h

/-- A row valid for a column list stays valid after relaxing nullability. -/
theorem rowOk_relax (cols : List Column) (r : Row) (h : rowOk cols r = true) :
    rowOk (cols.map relaxNullable) r = true := by
  induction cols generalizing r with
  | nil => simpa [rowOk] using h
  | cons c cs ih =>
    cases r with
    | nil => simp [rowOk] at h
    | cons v vs =>
      unfold rowOk at h ⊢
      simp only [List.length_cons, List.map_cons, List.zip_cons_cons, List.all_cons,
        Bool.and_eq_true, beq_iff_eq] at h ⊢
      obtain ⟨hlen, hf, hrest⟩ := h
      have h2 : rowOk cs vs = true := by
        unfold rowOk
        simp only [Bool.and_eq_true, beq_iff_eq]
        exact ⟨Nat.succ_injective hlen, hrest⟩
      have h3 := ih vs h2
      unfold rowOk at h3
      simp only [Bool.and_eq_true, beq_iff_eq] at h3
      exact ⟨by rw [List.length_map]; exact hlen, fieldOk_relax c v hf, h3.2⟩

theorem colIdx_relax (cols : List Column) (n : String) :
    colIdx (cols.map relaxNullable) n = colIdx cols n := by
  induction cols with
  | nil => rfl
  | cons c cs ih => simp only [List.map_cons, colIdx, relaxNullable_name, ih]

theorem getVal_relax (cols : List Column) (r : Row) (n : String) :
    getVal (cols.map relaxNullable) r n = getVal cols r n := by
  unfold getVal; rw [colIdx_relax]

theorem colValues_relax (cols : List Column) (rows : List Row) (n : String) :
    colValues (cols.map relaxNullable) rows n = colValues cols rows n := by
  unfold colValues
  simp [getVal_relax]

/-- A whole table valid for a declaration stays valid after relaxing
nullability (names, uniqueness and primary keys are untouched). -/
theorem tableOk_relax (nm nm2 : String) (fks fks2 : List ForeignKey)
    (cols : List Column) (rows : List Row)
    (h : tableOk { tdef := { name := nm, cols := cols, fks := fks }, rows := rows } = true) :
    tableOk { tdef := { name := nm2, cols := cols.map relaxNullable, fks := fks2 },
              rows := rows } = true := by
  unfold tableOk at h ⊢
  simp only [Bool.and_eq_true, List.all_eq_true] at h ⊢
  obtain ⟨h1, h2⟩ := h
  refine ⟨fun r hr => rowOk_relax cols r (h1 r hr), fun c hc => ?_⟩
  rcases List.mem_map.mp hc with ⟨c0, hc0, rfl⟩
  have h3 := h2 c0 hc0
  simpa only [colValues_relax, relaxNullable_name, relaxNullable_unique,
    relaxNullable_primaryKey] using h3

/-- The database produced by migration 1, with arbitrary rows in each table. -/
def dbAfterV1 (a c t g p u : List Row) : DbState :=
  [{ tdef := accountsDef, rows := a },
   { tdef := calendarsDef, rows := c },
   { tdef := tasksDefV1, rows := t },
   { tdef := tagsDef, rows := g },
   { tdef := pendingDeletionsDef, rows := p },
   { tdef := uiStateDef, rows := u }]

/-- C3: for every database state produced by version 1 (arbitrary valid rows),
running migration 2 succeeds and yields a `tasks` table holding exactly the
same rows; its column list keeps the same names in the same order and differs
from version 1 only by dropping NOT NULL on `account_id` and `calendar_id`. -/
theorem c3_migration2_recreates_tasks (a c t g p u : List Row)
    (h : tableOk { tdef := tasksDefV1, rows := t } = true) :
    execStmts (dbAfterV1 a c t g p u) migration2.sql =
      some [{ tdef := accountsDef, rows := a },
            { tdef := calendarsDef, rows := c },
            { tdef := tagsDef, rows := g },
            { tdef := pendingDeletionsDef, rows := p },
            { tdef := uiStateDef, rows := u },
            { tdef := { name := "tasks", cols := tasksColsV2, fks := tasksFks }, rows := t }] ∧
    tasksColsV2.map Column.name = tasksColsV1.map Column.name ∧
    tasksColsV2 = tasksColsV1.map relaxNullable ∧
    (∀ c0 : Column, (c0.name == "account_id" || c0.name == "calendar_id") = false →
      relaxNullable c0 = c0) := by
  have hv1 : tableOk { tdef := { name := "tasks", cols := tasksColsV1, fks := tasksFks }, rows := t } = true := h
  have hnew : tableOk { tdef := tasksNewDef, rows := t } = true := by
    have h2 := tableOk_relax "tasks" "tasks_new" tasksFks tasksFks tasksColsV1 t hv1
    unfold tasksNewDef
    rw [show tasksColsV2 = tasksColsV1.map relaxNullable from rfl]
    exact h2
  refine ⟨?_, by rfl, by rfl, fun c0 hc0 => by simp [relaxNullable, hc0]⟩
  simp only [migration2, execStmts, execStmt, dbAfterV1, findTable, List.find?, setRows,
    List.nil_append, List.cons_append, List.map_cons, List.map_nil, List.filter,
    accountsDef, calendarsDef, tasksDefV1, tagsDef, pendingDeletionsDef, uiStateDef,
    tasksNewDef] at hnew ⊢
  simp [hnew]

/-- A concrete task row valid under the version-1 schema. -/
def taskRowV1 : Row :=
  [Value.text "t1", Value.text "u1", Value.null, Value.null, Value.text "Task",
   Value.text "", Value.int 0, Value.null, Value.null, Value.null,
   Value.text "none", Value.null, Value.null, Value.null, Value.null,
   Value.text "2024-01-01", Value.text "2024-01-01", Value.null, Value.text "[]",
   Value.null, Value.int 0, Value.int 0, Value.text "a1", Value.text "c1",
   Value.int 0, Value.int 0]

/-- Witness for C3 at a concrete input: a one-task version-1 store is valid and
migration 2 keeps the row unchanged. -/
theorem c3_migration2_recreates_tasks_witness :
    tableOk { tdef := tasksDefV1, rows := [taskRowV1] } = true ∧
    execStmts (dbAfterV1 [] [] [taskRowV1] [] [] []) migration2.sql =
      some [{ tdef := accountsDef, rows := [] },
            { tdef := calendarsDef, rows := [] },
            { tdef := tagsDef, rows := [] },
            { tdef := pendingDeletionsDef, rows := [] },
            { tdef := uiStateDef, rows := [] },
            { tdef := { name := "tasks", cols := tasksColsV2, fks := tasksFks },
              rows := [taskRowV1] }] :=
  ⟨by rfl, (c3_migration2_recreates_tasks [] [] [taskRowV1] [] [] [] (by rfl)).1⟩

/-! ## C4: `uid` uniqueness and the singleton `ui_state` row -/

/-- The column of a column list named `n`. -/
def colFind (cols : List Column) (n : String) : Option Column :=
  cols.find? (fun c => c.name == n)

/-- A valid row yields, at each declared column, a value satisfying that
column's field constraints. -/
theorem rowOk_getVal (cols : List Column) (r : Row) (n : String) (c : Column)
    (hfind : colFind cols n = some c) (h : rowOk cols r = true) :
    ∃ v, getVal cols r n = some v ∧ fieldOk c v = true := by
  induction cols generalizing r with
  | nil => simp [colFind, List.find?] at hfind
  | cons c0 cs ih =>
    cases r with
    | nil => simp [rowOk] at h
    | cons v vs =>
      unfold rowOk at h
      simp only [List.length_cons, List.zip_cons_cons, List.all_cons, Bool.and_eq_true,
        beq_iff_eq] at h
      obtain ⟨hlen, hf, hrest⟩ := h
      unfold colFind at hfind
      rw [List.find?_cons] at hfind
      by_cases hn : (c0.name == n) = true
      · rw [hn] at hfind
        cases hfind
        exact ⟨v, by simp [getVal, colIdx, hn], hf⟩
      · have hn3 : (c0.name == n) = false := by simpa using hn
        rw [hn3] at hfind
        have h2 : rowOk cs vs = true := by
          unfold rowOk
          simp only [Bool.and_eq_true, beq_iff_eq]
          exact ⟨Nat.succ_injective hlen, hrest⟩
        obtain ⟨v2, hv2, hf2⟩ := ih vs hfind h2
        refine ⟨v2, ?_, hf2⟩
        unfold getVal at hv2 ⊢
        simp only [colIdx, hn3, if_false, Bool.false_eq_true]
        cases hidx : colIdx cs n with
        | none => rw [hidx] at hv2; cases hv2
        | some i =>
          rw [hidx] at hv2
          simpa [Option.bind] using hv2

/-- Every valid `ui_state` row stores `id = 1`, and a valid `ui_state` table
holds at most one row. -/
theorem ui_state_singleton (urows : List Row)
    (h : tableOk { tdef := uiStateDef, rows := urows } = true) :
    urows.length ≤ 1 ∧
    ∀ r ∈ urows, getVal uiStateDef.cols r "id" = some (Value.int 1) := by
  unfold tableOk at h
  simp only [Bool.and_eq_true, List.all_eq_true] at h
  obtain ⟨h1, h2⟩ := h
  have hid : ∀ r ∈ urows, getVal uiStateDef.cols r "id" = some (Value.int 1) := by
    intro r hr
    obtain ⟨v, hv, hf⟩ := rowOk_getVal uiStateDef.cols r "id"
      { name := "id", notNull := true, primaryKey := true, checkEq := some (Value.int 1) }
      (by rfl) (h1 r hr)
    unfold fieldOk at hf
    simp only [Bool.and_eq_true, Bool.or_eq_true, beq_iff_eq] at hf
    obtain ⟨hf1, hf2⟩ := hf
    rcases hf2 with h3 | h3
    · rw [h3] at hf1
      simp at hf1
    · rw [h3] at hv
      exact hv
  refine ⟨?_, hid⟩
  have h3 := h2 ⟨"id", true, false, true, none, some (Value.int 1)⟩
    (by rw [show uiStateDef.cols = ⟨"id", true, false, true, none, some (Value.int 1)⟩ ::
      [col "active_account_id", col "active_calendar_id", col "active_tag_id",
       col "selected_task_id", colNNd "search_query" (Value.text ""),
       colNNd "sort_mode" (Value.text "manual"), colNNd "sort_direction" (Value.text "asc"),
       colNNd "show_completed_tasks" (Value.int 1), colNNd "is_editor_open" (Value.int 0)]
      from rfl]; exact List.mem_cons_self _ _)
  simp only [Bool.or_true, Bool.not_true, Bool.false_or] at h3
  rcases urows with _ | ⟨r1, rest⟩
  · simp
  rcases rest with _ | ⟨r2, rest2⟩
  · simp
  exfalso
  have e1 := hid r1 (List.mem_cons_self _ _)
  have e2 := hid r2 (List.mem_cons_of_mem _ (List.mem_cons_self _ _))
  unfold colValues at h3
  rw [List.filterMap_cons, List.filterMap_cons, e1, e2] at h3
  simp [nodupBool, List.filter_cons] at h3

/-- C4: in every schema version the `tasks.uid` column is declared NOT NULL
UNIQUE; the `ui_state` declaration forces `id = 1` through its CHECK, admits at
most one row, and migration 1 inserts that single default row. -/
theorem c4_hard_constraints (urows : List Row)
    (h : tableOk { tdef := uiStateDef, rows := urows } = true) :
    (colByName tasksDefV1 "uid").map (fun c => (c.notNull, c.unique)) = some (true, true) ∧
    (colByName tasksNewDef "uid").map (fun c => (c.notNull, c.unique)) = some (true, true) ∧
    (colByName tasksDefV3 "uid").map (fun c => (c.notNull, c.unique)) = some (true, true) ∧
    (colByName uiStateDef "id").map (fun c => (c.primaryKey, c.checkEq)) =
      some (true, some (Value.int 1)) ∧
    urows.length ≤ 1 ∧
    (∀ r ∈ urows, getVal uiStateDef.cols r "id" = some (Value.int 1)) ∧
    ((dbAt 1).bind (fun d => findTable d "ui_state")).map Table.rows =
      some [mkRow uiStateDef.cols [("id", Value.int 1)]] := by
  obtain ⟨hlen, hone⟩ := ui_state_singleton urows h
  exact ⟨rfl, rfl, rfl, rfl, hlen, hone, rfl⟩

/-- Witness for C4 at a concrete input: the default `ui_state` table produced
by migration 1 is valid. -/
theorem c4_hard_constraints_witness :
    tableOk { tdef := uiStateDef, rows := [mkRow uiStateDef.cols [("id", Value.int 1)]] } = true ∧
    ([mkRow uiStateDef.cols [("id", Value.int 1)]].length ≤ 1 ∧
      ∀ r ∈ [mkRow uiStateDef.cols [("id", Value.int 1)]],
        getVal uiStateDef.cols r "id" = some (Value.int 1)) :=
  ⟨by rfl,
   ⟨(c4_hard_constraints [mkRow uiStateDef.cols [("id", Value.int 1)]] (by rfl)).2.2.2.2.1,
    (c4_hard_constraints [mkRow uiStateDef.cols [("id", Value.int 1)]] (by rfl)).2.2.2.2.2.1⟩⟩

/-! ## C8: the `pending_deletions` tombstone shape -/

/-- A valid row holds a non-NULL value at every NOT NULL column. -/
theorem rowOk_notNull (cols : List Column) (r : Row) (n : String) (c : Column)
    (hfind : colFind cols n = some c) (hnn : c.notNull = true) (h : rowOk cols r = true) :
    ∃ v, getVal cols r n = some v ∧ v ≠ Value.null := by
  obtain ⟨v, hv, hf⟩ := rowOk_getVal cols r n c hfind h
  refine ⟨v, hv, ?_⟩
  intro heq
  subst heq
  unfold fieldOk at hf
  rw [hnn] at hf
  simp at hf

/-- Unfolding equation for `colValues` on a row whose value at `n` is non-NULL. -/
theorem colValues_cons_some (cols : List Column) (r : Row) (rs : List Row) (n : String)
    (v : Value) (hv : getVal cols r n = some v) (hnn : (v == Value.null) = false) :
    colValues cols (r :: rs) n = v :: colValues cols rs n := by
  unfold colValues
  rw [List.filterMap_cons, hv, List.filter_cons]
  simp [hnn]

/-- When every row holds a non-NULL value in column `n` and those values are
pairwise distinct, the rows are pairwise distinguished by column `n`. -/
theorem nodup_pairwise_getVal (cols : List Column) (rows : List Row) (n : String)
    (hvals : ∀ r ∈ rows, ∃ v, getVal cols r n = some v ∧ v ≠ Value.null)
    (hnd : nodupBool (colValues cols rows n) = true) :
    List.Pairwise (fun r1 r2 => getVal cols r1 n ≠ getVal cols r2 n) rows := by
  induction rows with
  | nil => exact List.Pairwise.nil
  | cons r rs ih =>
    obtain ⟨v, hv, hvn⟩ := hvals r (List.mem_cons_self _ _)
    have hvb : (v == Value.null) = false := by simpa using hvn
    rw [colValues_cons_some cols r rs n v hv hvb] at hnd
    unfold nodupBool at hnd
    simp only [Bool.and_eq_true] at hnd
    constructor
    · intro r2 hr2
      obtain ⟨v2, hv2, hvn2⟩ := hvals r2 (List.mem_cons_of_mem _ hr2)
      rw [hv, hv2]
      intro heq
      injection heq with heq
      subst heq
      have hmem : v ∈ colValues cols rs n := by
        have h4 : v ∈ colValues cols (r2 :: []) n := by
          rw [colValues_cons_some cols r2 [] n v hv2 hvb]
          exact List.mem_cons_self _ _
        unfold colValues at h4 ⊢
        rw [List.mem_filter] at h4 ⊢
        refine ⟨List.mem_filterMap.mpr ⟨r2, hr2, hv2⟩, h4.2⟩
      have hcont : (colValues cols rs n).contains v = true := by simpa using hmem
      have hnd1 := hnd.1
      rw [hcont] at hnd1
      simp at hnd1
    · exact ih (fun r2 hr2 => hvals r2 (List.mem_cons_of_mem _ hr2)) hnd.2

/-- C8: every `pending_deletions` row carries non-NULL `uid`, `href`,
`account_id`, `calendar_id`; `uid` is the primary key, so no two tombstones
share a `uid`. -/
theorem c8_pending_deletion_shape (prows : List Row)
    (h : tableOk { tdef := pendingDeletionsDef, rows := prows } = true) :
    pendingDeletionsDef.cols.map (fun c => (c.name, c.notNull)) =
      [("uid", true), ("href", true), ("account_id", true), ("calendar_id", true)] ∧
    (colFind pendingDeletionsDef.cols "uid").map Column.primaryKey = some true ∧
    (∀ r ∈ prows, ∀ n ∈ ["uid", "href", "account_id", "calendar_id"],
      ∃ v, getVal pendingDeletionsDef.cols r n = some v ∧ v ≠ Value.null) ∧
    List.Pairwise (fun r1 r2 =>
      getVal pendingDeletionsDef.cols r1 "uid" ≠ getVal pendingDeletionsDef.cols r2 "uid")
      prows := by
  unfold tableOk at h
  simp only [Bool.and_eq_true, List.all_eq_true] at h
  obtain ⟨h1, h2⟩ := h
  have hvals : ∀ r ∈ prows, ∀ n ∈ ["uid", "href", "account_id", "calendar_id"],
      ∃ v, getVal pendingDeletionsDef.cols r n = some v ∧ v ≠ Value.null := by
    intro r hr n hn
    simp only [List.mem_cons, List.not_mem_nil, or_false] at hn
    rcases hn with h3 | h3 | h3 | h3 <;> subst h3
    · exact rowOk_notNull _ r "uid" (colPK "uid") (by rfl) (by rfl) (h1 r hr)
    · exact rowOk_notNull _ r "href" (colNN "href") (by rfl) (by rfl) (h1 r hr)
    · exact rowOk_notNull _ r "account_id" (colNN "account_id") (by rfl) (by rfl) (h1 r hr)
    · exact rowOk_notNull _ r "calendar_id" (colNN "calendar_id") (by rfl) (by rfl) (h1 r hr)
  refine ⟨rfl, rfl, hvals, ?_⟩
  have h3 := h2 (colPK "uid") (by exact List.mem_cons_self _ _)
  simp only [colPK, Bool.or_true, Bool.not_true, Bool.false_or] at h3
  exact nodup_pairwise_getVal pendingDeletionsDef.cols prows "uid"
    (fun r hr => hvals r hr "uid" (List.mem_cons_self _ _)) h3

/-- A concrete tombstone row. -/
def pendingRow : Row :=
  [Value.text "u1", Value.text "/cal/1.ics", Value.text "a1", Value.text "c1"]

/-- Witness for C8 at a concrete input. -/
theorem c8_pending_deletion_shape_witness :
    tableOk { tdef := pendingDeletionsDef, rows := [pendingRow] } = true ∧
    (∀ r ∈ [pendingRow], ∀ n ∈ ["uid", "href", "account_id", "calendar_id"],
      ∃ v, getVal pendingDeletionsDef.cols r n = some v ∧ v ≠ Value.null) :=
  ⟨by rfl, (c8_pending_deletion_shape [pendingRow] (by rfl)).2.2.1⟩

/-! ## The database shape after all three migrations -/

/-- The database produced by the full migration pipeline (tables in the order
the pipeline leaves them: migration 2 drops `tasks` and re-appends it last),
with arbitrary rows in each table. -/
def dbFinal (a c g p u t : List Row) : DbState :=
  [{ tdef := accountsDef, rows := a },
   { tdef := calendarsDef, rows := c },
   { tdef := tagsDef, rows := g },
   { tdef := pendingDeletionsDef, rows := p },
   { tdef := uiStateDef, rows := u },
   { tdef := tasksDefV3, rows := t }]

/-- Sanity: booting an empty store through the real catalog produces exactly
the `dbFinal` shape, with the single default `ui_state` row. -/
theorem dbFinal_boot :
    catchUp migrations { db := [], version := 0 } =
      some { db := dbFinal [] [] [] [] [mkRow uiStateDef.cols [("id", Value.int 1)]] [],
             version := 3 } := by
  rfl

/-- Each table of a valid database is itself valid and all its foreign keys
resolve. -/
theorem dbOk_table (db : DbState) (tb : Table) (hOk : dbOk db = true) (hmem : tb ∈ db) :
    tableOk tb = true ∧
    ∀ fk ∈ tb.tdef.fks, ∀ r ∈ tb.rows, fkRowOk db tb.tdef.cols fk r = true := by
  unfold dbOk at hOk
  rw [List.all_eq_true] at hOk
  have h := hOk tb hmem
  simp only [Bool.and_eq_true, List.all_eq_true] at h
  exact h

/-! ## C6: `calendars.account_id` is NOT NULL, contrary to the claim -/

/-- A calendar row with NULL `account_id` (the claimed local-only calendar). -/
def localCalendarRow : Row :=
  [Value.text "cal-local", Value.null, Value.text "Local", Value.text "",
   Value.null, Value.null, Value.null, Value.null, Value.null]

/-- The same calendar row with `account_id = "a1"`. -/
def localCalendarRowLinked : Row :=
  [Value.text "cal-local", Value.text "a1", Value.text "Local", Value.text "",
   Value.null, Value.null, Value.null, Value.null, Value.null]

/-- Counterexample to C6: the schema rejects a calendar row whose `account_id`
is NULL (the otherwise identical row with a non-NULL `account_id` passes), so a
local-only calendar is not representable. -/
theorem c6_counterexample :
    rowOk calendarsDef.cols localCalendarRow = false ∧
    tableOk { tdef := calendarsDef, rows := [localCalendarRow] } = false ∧
    rowOk calendarsDef.cols localCalendarRowLinked = true := by
  exact ⟨rfl, rfl, rfl⟩

/-- C6 (amended): `calendars.account_id` is declared NOT NULL, so every stored
calendar row carries a non-NULL `account_id`, and (by the foreign key) it
references an existing account. -/
theorem c6_account_id_not_null (a c g p u t : List Row) (r : Row) (v : Value)
    (hOk : dbOk (dbFinal a c g p u t) = true) (hr : r ∈ c)
    (hv : getVal calendarsDef.cols r "account_id" = some v) :
    v ≠ Value.null ∧ ∃ ar ∈ a, getVal accountsDef.cols ar "id" = some v := by
  obtain ⟨htab, hfk⟩ := dbOk_table (dbFinal a c g p u t)
    { tdef := calendarsDef, rows := c } hOk (by simp [dbFinal])
  have htabr : rowOk calendarsDef.cols r = true := by
    unfold tableOk at htab
    simp only [Bool.and_eq_true, List.all_eq_true] at htab
    exact htab.1 r hr
  obtain ⟨v2, hv2, hvn2⟩ := rowOk_notNull calendarsDef.cols r "account_id"
    (colNN "account_id") (by rfl) (by rfl) htabr
  rw [hv] at hv2
  injection hv2 with hv2
  subst hv2
  refine ⟨hvn2, ?_⟩
  have hfkr := hfk ⟨"account_id", "accounts", "id", true⟩ (by simp [calendarsDef]) r hr
  unfold fkRowOk at hfkr
  rw [hv] at hfkr
  have hft : findTable (dbFinal a c g p u t) "accounts" =
      some { tdef := accountsDef, rows := a } := by
    simp [dbFinal, findTable, List.find?, accountsDef]
  cases v with
  | null => exact absurd rfl hvn2
  | text s =>
    rw [hft] at hfkr
    rw [List.any_eq_true] at hfkr
    obtain ⟨ar, har, hbeq⟩ := hfkr
    exact ⟨ar, har, by simpa using hbeq⟩
  | int k =>
    rw [hft] at hfkr
    rw [List.any_eq_true] at hfkr
    obtain ⟨ar, har, hbeq⟩ := hfkr
    exact ⟨ar, har, by simpa using hbeq⟩

/-- A concrete valid account row. -/
def accountRow : Row :=
  [Value.text "a1", Value.text "Acc", Value.text "https://example.com",
   Value.text "user", Value.text "pw", Value.null, Value.null, Value.int 1]

/-- Witness for the amended C6 at a concrete input. -/
theorem c6_account_id_not_null_witness :
    dbOk (dbFinal [accountRow] [localCalendarRowLinked] [] [] [] []) = true ∧
    (Value.text "a1" ≠ Value.null ∧
      ∃ ar ∈ [accountRow], getVal accountsDef.cols ar "id" = some (Value.text "a1")) :=
  ⟨by rfl,
   c6_account_id_not_null [accountRow] [localCalendarRowLinked] [] [] [] []
     localCalendarRowLinked (Value.text "a1") (by rfl)
     (List.mem_cons_self _ _) (by rfl)⟩

/-! ## C7: `completed` vs `completed_at` is not a schema constraint -/

/-- A task row, valid under the final schema, with `completed = 1` but a NULL
`completed_at`. -/
def taskRowCompletedNoTimestamp : Row :=
  [Value.text "t1", Value.text "u1", Value.null, Value.null, Value.text "Task",
   Value.text "", Value.int 1, Value.null, Value.null, Value.null,
   Value.text "none", Value.null, Value.null, Value.null, Value.null,
   Value.text "2024-01-01", Value.text "2024-01-01", Value.null, Value.text "[]",
   Value.null, Value.int 0, Value.int 0, Value.null, Value.null,
   Value.int 0, Value.int 0, Value.null]

/-- A task row, valid under the final schema, with `completed = 0` but a
non-NULL `completed_at`. -/
def taskRowUncompletedWithTimestamp : Row :=
  [Value.text "t2", Value.text "u2", Value.null, Value.null, Value.text "Task",
   Value.text "", Value.int 0, Value.text "2024-01-02", Value.null, Value.null,
   Value.text "none", Value.null, Value.null, Value.null, Value.null,
   Value.text "2024-01-01", Value.text "2024-01-01", Value.null, Value.text "[]",
   Value.null, Value.int 0, Value.int 0, Value.null, Value.null,
   Value.int 0, Value.int 0, Value.null]

/-- Counterexample to C7: a whole database satisfying the final schema whose
single task row has `completed = 1` and `completed_at = NULL`, so the
biconditional does not hold for every admissible row. -/
theorem c7_counterexample :
    dbOk (dbFinal [] [] [] [] [] [taskRowCompletedNoTimestamp]) = true ∧
    getVal tasksDefV3.cols taskRowCompletedNoTimestamp "completed" = some (Value.int 1) ∧
    getVal tasksDefV3.cols taskRowCompletedNoTimestamp "completed_at" = some Value.null := by
  exact ⟨rfl, rfl, rfl⟩

/-- C7 (amended): the final schema leaves the `completed` / `completed_at`
relationship unconstrained — admissible databases exist violating the
biconditional in both directions; it is an application-level convention only. -/
theorem c7_completed_not_schema_enforced :
    (dbOk (dbFinal [] [] [] [] [] [taskRowCompletedNoTimestamp]) = true ∧
      getVal tasksDefV3.cols taskRowCompletedNoTimestamp "completed" = some (Value.int 1) ∧
      getVal tasksDefV3.cols taskRowCompletedNoTimestamp "completed_at" = some Value.null) ∧
    (dbOk (dbFinal [] [] [] [] [] [taskRowUncompletedWithTimestamp]) = true ∧
      getVal tasksDefV3.cols taskRowUncompletedWithTimestamp "completed" = some (Value.int 0) ∧
      getVal tasksDefV3.cols taskRowUncompletedWithTimestamp "completed_at" =
        some (Value.text "2024-01-02")) := by
  exact ⟨⟨rfl, rfl, rfl⟩, ⟨rfl, rfl, rfl⟩⟩

/-! ## C5: ON DELETE CASCADE semantics -/

/-- The child-row predicate a cascade induces: the row's foreign-key value is
non-NULL and among the deleted parent keys (SQL: NULL references nothing). -/
def childPred (cols : List Column) (fkcol : String) (delVals : List Value) (r : Row) : Bool :=
  ((getVal cols r fkcol).map
    (fun v => !(v == Value.null) && delVals.contains v)).getD false

/-- Columns of the table named `n`. -/
def colsOf (db : DbState) (n : String) : List Column :=
  match findTable db n with
  | some t => t.tdef.cols
  | none => []

/-- Rows of the table named `n`. -/
def rowsOf (db : DbState) (n : String) : List Row :=
  match findTable db n with
  | some t => t.rows
  | none => []

/-- The (child table, foreign key) pairs that cascade on deletions from
`tname`. -/
def cascadeTargets (db : DbState) (tname : String) : List (String × ForeignKey) :=
  db.foldl (fun acc u =>
    acc ++ u.tdef.fks.filterMap (fun fk =>
      if fk.refTable == tname && fk.onDeleteCascade then some (u.tdef.name, fk) else none)) []

/-- One step of cascading deletion: remove the matching rows of `tname`, then
recursively delete, in each cascading child table, the rows referencing a
removed parent key. -/
def deleteStep (recur : DbState → String → (Row → Bool) → DbState)
    (db : DbState) (tname : String) (pred : Row → Bool) : DbState :=
  match findTable db tname with
  | none => db
  | some t =>
    let removed := t.rows.filter pred
    let db1 := setRows db tname (t.rows.filter (fun r => !(pred r)))
    (cascadeTargets db1 tname).foldl
      (fun acc tgt =>
        recur acc tgt.1
          (childPred (colsOf acc tgt.1) tgt.2.col
            (removed.filterMap (fun r => getVal t.tdef.cols r tgt.2.refCol))))
      db1

/-- Fuelled cascading deletion (the cascade depth is bounded by the number of
tables). -/
def deleteFrom : Nat → DbState → String → (Row → Bool) → DbState
  | 0 => fun db _ _ => db
  | fuel + 1 => deleteStep (deleteFrom fuel)

/-- `DELETE FROM tname WHERE pred` with ON DELETE CASCADE semantics. -/
def deleteWhere (db : DbState) (tname : String) (pred : Row → Bool) : DbState :=
  deleteFrom db.length db tname pred

theorem deleteFrom_succ (fuel : Nat) :
    deleteFrom (fuel + 1) = deleteStep (deleteFrom fuel) := rfl

/-- Deleting from `tasks` cascades nowhere: no table references `tasks`. -/
theorem deleteFrom_tasks (n : Nat) (a c g p u t : List Row) (pred : Row → Bool) :
    deleteFrom (n + 1)
      [{ tdef := accountsDef, rows := a }, { tdef := calendarsDef, rows := c },
       { tdef := tagsDef, rows := g }, { tdef := pendingDeletionsDef, rows := p },
       { tdef := uiStateDef, rows := u }, { tdef := tasksDefV3, rows := t }]
      "tasks" pred =
      [{ tdef := accountsDef, rows := a }, { tdef := calendarsDef, rows := c },
       { tdef := tagsDef, rows := g }, { tdef := pendingDeletionsDef, rows := p },
       { tdef := uiStateDef, rows := u },
       { tdef := tasksDefV3, rows := t.filter (fun r => !(pred r)) }] := by
  rw [deleteFrom_succ]
  unfold deleteStep
  simp [findTable, List.find?, setRows, cascadeTargets, accountsDef, calendarsDef,
    tagsDef, pendingDeletionsDef, uiStateDef, tasksDefV3, tasksFks]

theorem accountsDef_name : accountsDef.name = "accounts" := rfl

theorem calendarsDef_name : calendarsDef.name = "calendars" := rfl

theorem tagsDef_name : tagsDef.name = "tags" := rfl

theorem pendingDeletionsDef_name : pendingDeletionsDef.name = "pending_deletions" := rfl

theorem uiStateDef_name : uiStateDef.name = "ui_state" := rfl

theorem tasksDefV3_name : tasksDefV3.name = "tasks" := rfl

theorem accountsDef_fks : accountsDef.fks = [] := rfl

theorem calendarsDef_fks : calendarsDef.fks =
    [{ col := "account_id", refTable := "accounts", refCol := "id",
       onDeleteCascade := true }] := rfl

theorem tagsDef_fks : tagsDef.fks = [] := rfl

theorem pendingDeletionsDef_fks : pendingDeletionsDef.fks = [] := rfl

theorem uiStateDef_fks : uiStateDef.fks = [] := rfl

theorem tasksDefV3_fks : tasksDefV3.fks =
    [{ col := "account_id", refTable := "accounts", refCol := "id", onDeleteCascade := true },
     { col := "calendar_id", refTable := "calendars", refCol := "id",
       onDeleteCascade := true }] := rfl

/-- Deleting from `calendars` cascades exactly to the `tasks` rows whose
`calendar_id` is a removed calendar id. -/
theorem deleteFrom_calendars (n : Nat) (a c g p u t : List Row) (pred : Row → Bool) :
    deleteFrom (n + 2)
      [{ tdef := accountsDef, rows := a }, { tdef := calendarsDef, rows := c },
       { tdef := tagsDef, rows := g }, { tdef := pendingDeletionsDef, rows := p },
       { tdef := uiStateDef, rows := u }, { tdef := tasksDefV3, rows := t }]
      "calendars" pred =
      [{ tdef := accountsDef, rows := a },
       { tdef := calendarsDef, rows := c.filter (fun r => !(pred r)) },
       { tdef := tagsDef, rows := g }, { tdef := pendingDeletionsDef, rows := p },
       { tdef := uiStateDef, rows := u },
       { tdef := tasksDefV3,
         rows := t.filter (fun r => !(childPred tasksDefV3.cols "calendar_id"
           ((c.filter pred).filterMap
             (fun r2 => getVal calendarsDef.cols r2 "id")) r)) }] := by
  rw [show n + 2 = (n + 1) + 1 from rfl]
  rw [deleteFrom_succ]
  unfold deleteStep
  simp only [findTable, List.find?, setRows, cascadeTargets, colsOf,
    accountsDef_name, calendarsDef_name, tagsDef_name, pendingDeletionsDef_name,
    uiStateDef_name, tasksDefV3_name,
    accountsDef_fks, calendarsDef_fks, tagsDef_fks, pendingDeletionsDef_fks,
    uiStateDef_fks, tasksDefV3_fks,
    String.reduceBEq, Bool.false_eq_true, if_false, if_true,
    Bool.and_true, Bool.and_false, Bool.true_and, Bool.false_and,
    List.map_cons, List.map_nil, List.foldl_cons, List.foldl_nil,
    List.filterMap_cons, List.filterMap_nil,
    List.nil_append, List.cons_append, List.append_nil]
  rw [deleteFrom_tasks]

/-- Deleting from `accounts` cascades to the `calendars` rows referencing a
removed account, then to the `tasks` rows referencing a removed calendar, and
finally to the `tasks` rows referencing a removed account directly. -/
theorem deleteFrom_accounts (n : Nat) (a c g p u t : List Row) (pred : Row → Bool) :
    deleteFrom (n + 3)
      [{ tdef := accountsDef, rows := a }, { tdef := calendarsDef, rows := c },
       { tdef := tagsDef, rows := g }, { tdef := pendingDeletionsDef, rows := p },
       { tdef := uiStateDef, rows := u }, { tdef := tasksDefV3, rows := t }]
      "accounts" pred =
      [{ tdef := accountsDef, rows := a.filter (fun r => !(pred r)) },
       { tdef := calendarsDef,
         rows := c.filter (fun r => !(childPred calendarsDef.cols "account_id"
           ((a.filter pred).filterMap
             (fun r2 => getVal accountsDef.cols r2 "id")) r)) },
       { tdef := tagsDef, rows := g }, { tdef := pendingDeletionsDef, rows := p },
       { tdef := uiStateDef, rows := u },
       { tdef := tasksDefV3,
         rows := (t.filter (fun r => !(childPred tasksDefV3.cols "calendar_id"
             ((c.filter (childPred calendarsDef.cols "account_id"
                 ((a.filter pred).filterMap
                   (fun r2 => getVal accountsDef.cols r2 "id")))).filterMap
               (fun r2 => getVal calendarsDef.cols r2 "id")) r))).filter
           (fun r => !(childPred tasksDefV3.cols "account_id"
             ((a.filter pred).filterMap
               (fun r2 => getVal accountsDef.cols r2 "id")) r)) }] := by
  rw [show n + 3 = (n + 2) + 1 from rfl]
  rw [deleteFrom_succ]
  unfold deleteStep
  simp only [findTable, List.find?, setRows, cascadeTargets, colsOf,
    accountsDef_name, calendarsDef_name, tagsDef_name, pendingDeletionsDef_name,
    uiStateDef_name, tasksDefV3_name,
    accountsDef_fks, calendarsDef_fks, tagsDef_fks, pendingDeletionsDef_fks,
    uiStateDef_fks, tasksDefV3_fks,
    String.reduceBEq, Bool.false_eq_true, if_false, if_true,
    Bool.and_true, Bool.and_false, Bool.true_and, Bool.false_and,
    List.map_cons, List.map_nil, List.foldl_cons, List.foldl_nil,
    List.filterMap_cons, List.filterMap_nil,
    List.nil_append, List.cons_append, List.append_nil]
  rw [deleteFrom_calendars]
  rw [show n + 2 = (n + 1) + 1 from rfl]
  rw [deleteFrom_tasks]

/-- Sufficient condition for a cascade to remove a child row. -/
theorem childPred_eq_true (cols : List Column) (fkcol : String) (delVals : List Value)
    (r : Row) (v : Value) (hv : getVal cols r fkcol = some v)
    (hvb : (v == Value.null) = false) (hmem : v ∈ delVals) :
    childPred cols fkcol delVals r = true := by
  unfold childPred
  rw [hv]
  simp only [Option.map_some', Option.getD_some, hvb, Bool.not_false, Bool.true_and]
  simpa using hmem

/-- A non-NULL foreign-key value of a valid row resolves to a parent row. -/
theorem fkRowOk_resolves (db : DbState) (cols : List Column) (fk : ForeignKey) (r : Row)
    (pt : Table) (h : fkRowOk db cols fk r = true)
    (hft : findTable db fk.refTable = some pt)
    (v : Value) (hv : getVal cols r fk.col = some v) (hvn : v ≠ Value.null) :
    ∃ pr ∈ pt.rows, getVal pt.tdef.cols pr fk.refCol = some v := by
  unfold fkRowOk at h
  rw [hv] at h
  cases v with
  | null => exact absurd rfl hvn
  | text s =>
    rw [hft] at h
    rw [List.any_eq_true] at h
    obtain ⟨pr, hpr, hbeq⟩ := h
    exact ⟨pr, hpr, by simpa using hbeq⟩
  | int k =>
    rw [hft] at h
    rw [List.any_eq_true] at h
    obtain ⟨pr, hpr, hbeq⟩ := h
    exact ⟨pr, hpr, by simpa using hbeq⟩

/-- C5: cascading foreign-key deletions. Deleting the account with id `aid`
leaves no calendar referencing it, no task referencing it, and no task
referencing one of its calendars; deleting the calendar with id `cid` leaves
no task referencing it. -/
theorem c5_cascading_deletes (a c g p u t : List Row) (aid cid : Value)
    (hOk : dbOk (dbFinal a c g p u t) = true)
    (haid : aid ≠ Value.null) (hcid : cid ≠ Value.null) :
    (∀ r ∈ rowsOf (deleteWhere (dbFinal a c g p u t) "accounts"
        (fun r2 => getVal accountsDef.cols r2 "id" == some aid)) "calendars",
      ¬ getVal calendarsDef.cols r "account_id" = some aid) ∧
    (∀ r ∈ rowsOf (deleteWhere (dbFinal a c g p u t) "accounts"
        (fun r2 => getVal accountsDef.cols r2 "id" == some aid)) "tasks",
      ¬ getVal tasksDefV3.cols r "account_id" = some aid) ∧
    (∀ r ∈ rowsOf (deleteWhere (dbFinal a c g p u t) "accounts"
        (fun r2 => getVal accountsDef.cols r2 "id" == some aid)) "tasks",
      ∀ cr ∈ c, getVal calendarsDef.cols cr "account_id" = some aid →
        ¬ getVal tasksDefV3.cols r "calendar_id" = getVal calendarsDef.cols cr "id") ∧
    (∀ r ∈ rowsOf (deleteWhere (dbFinal a c g p u t) "calendars"
        (fun r2 => getVal calendarsDef.cols r2 "id" == some cid)) "tasks",
      ¬ getVal tasksDefV3.cols r "calendar_id" = some cid) := by
  obtain ⟨hcalTab, hcalFk⟩ := dbOk_table (dbFinal a c g p u t)
    { tdef := calendarsDef, rows := c } hOk (by simp [dbFinal])
  obtain ⟨htaskTab, htaskFk⟩ := dbOk_table (dbFinal a c g p u t)
    { tdef := tasksDefV3, rows := t } hOk (by simp [dbFinal])
  have hftAcc : findTable (dbFinal a c g p u t) "accounts" =
      some { tdef := accountsDef, rows := a } := rfl
  have hftCal : findTable (dbFinal a c g p u t) "calendars" =
      some { tdef := calendarsDef, rows := c } := rfl
  have haidb : (aid == Value.null) = false := by simpa using haid
  have hcidb : (cid == Value.null) = false := by simpa using hcid
  -- the deleted account keys
  have hmemA : ∀ r2 ∈ c, getVal calendarsDef.cols r2 "account_id" = some aid →
      aid ∈ (a.filter (fun r3 => getVal accountsDef.cols r3 "id" == some aid)).filterMap
        (fun r3 => getVal accountsDef.cols r3 "id") := by
    intro r2 hr2 hacc
    have hfkr := hcalFk ⟨"account_id", "accounts", "id", true⟩
      (by simp [calendarsDef]) r2 hr2
    obtain ⟨ar, har, harid⟩ := fkRowOk_resolves _ _ _ _ _ hfkr hftAcc aid hacc haid
    have har2 : ar ∈ a := har
    have harid2 : getVal accountsDef.cols ar "id" = some aid := harid
    refine List.mem_filterMap.mpr ⟨ar, List.mem_filter.mpr ⟨har2, ?_⟩, harid2⟩
    rw [harid2]
    simp
  have hmemAt : ∀ r2 ∈ t, getVal tasksDefV3.cols r2 "account_id" = some aid →
      aid ∈ (a.filter (fun r3 => getVal accountsDef.cols r3 "id" == some aid)).filterMap
        (fun r3 => getVal accountsDef.cols r3 "id") := by
    intro r2 hr2 hacc
    have hfkr := htaskFk ⟨"account_id", "accounts", "id", true⟩
      (by simp [tasksDefV3, tasksFks]) r2 hr2
    obtain ⟨ar, har, harid⟩ := fkRowOk_resolves _ _ _ _ _ hfkr hftAcc aid hacc haid
    have har2 : ar ∈ a := har
    have harid2 : getVal accountsDef.cols ar "id" = some aid := harid
    refine List.mem_filterMap.mpr ⟨ar, List.mem_filter.mpr ⟨har2, ?_⟩, harid2⟩
    rw [harid2]
    simp
  have eAccCal : rowsOf (deleteWhere (dbFinal a c g p u t) "accounts"
      (fun r2 => getVal accountsDef.cols r2 "id" == some aid)) "calendars" =
      c.filter (fun r => !(childPred calendarsDef.cols "account_id"
        (((a.filter (fun r2 => getVal accountsDef.cols r2 "id" == some aid))).filterMap
          (fun r2 => getVal accountsDef.cols r2 "id")) r)) := by
    unfold deleteWhere
    rw [show (dbFinal a c g p u t).length = 3 + 3 from rfl]
    simp only [dbFinal]
    rw [deleteFrom_accounts]
    rfl
  have eAccTasks : rowsOf (deleteWhere (dbFinal a c g p u t) "accounts"
      (fun r2 => getVal accountsDef.cols r2 "id" == some aid)) "tasks" =
      (t.filter (fun r => !(childPred tasksDefV3.cols "calendar_id"
          ((c.filter (childPred calendarsDef.cols "account_id"
              ((a.filter (fun r2 => getVal accountsDef.cols r2 "id" == some aid)).filterMap
                (fun r2 => getVal accountsDef.cols r2 "id")))).filterMap
            (fun r2 => getVal calendarsDef.cols r2 "id")) r))).filter
        (fun r => !(childPred tasksDefV3.cols "account_id"
          ((a.filter (fun r2 => getVal accountsDef.cols r2 "id" == some aid)).filterMap
            (fun r2 => getVal accountsDef.cols r2 "id")) r)) := by
    unfold deleteWhere
    rw [show (dbFinal a c g p u t).length = 3 + 3 from rfl]
    simp only [dbFinal]
    rw [deleteFrom_accounts]
    rfl
  have eCalTasks : rowsOf (deleteWhere (dbFinal a c g p u t) "calendars"
      (fun r2 => getVal calendarsDef.cols r2 "id" == some cid)) "tasks" =
      t.filter (fun r => !(childPred tasksDefV3.cols "calendar_id"
        ((c.filter (fun r2 => getVal calendarsDef.cols r2 "id" == some cid)).filterMap
          (fun r2 => getVal calendarsDef.cols r2 "id")) r)) := by
    unfold deleteWhere
    rw [show (dbFinal a c g p u t).length = 4 + 2 from rfl]
    simp only [dbFinal]
    rw [deleteFrom_calendars]
    rfl
  refine ⟨?_, ?_, ?_, ?_⟩
  · -- no surviving calendar references the deleted account
    intro r hr hacc
    rw [eAccCal] at hr
    rw [List.mem_filter] at hr
    obtain ⟨hrc, hrp⟩ := hr
    have hcp : childPred calendarsDef.cols "account_id"
        ((a.filter (fun r2 => getVal accountsDef.cols r2 "id" == some aid)).filterMap
          (fun r2 => getVal accountsDef.cols r2 "id")) r = true :=
      childPred_eq_true _ _ _ r aid hacc haidb (hmemA r hrc hacc)
    rw [hcp] at hrp
    simp at hrp
  · -- no surviving task references the deleted account
    intro r hr hacc
    rw [eAccTasks] at hr
    rw [List.mem_filter] at hr
    obtain ⟨hr1, hrp2⟩ := hr
    rw [List.mem_filter] at hr1
    obtain ⟨hrt, hrp1⟩ := hr1
    have hcp : childPred tasksDefV3.cols "account_id"
        ((a.filter (fun r2 => getVal accountsDef.cols r2 "id" == some aid)).filterMap
          (fun r2 => getVal accountsDef.cols r2 "id")) r = true :=
      childPred_eq_true _ _ _ r aid hacc haidb (hmemAt r hrt hacc)
    rw [hcp] at hrp2
    simp at hrp2
  · -- no surviving task references a calendar of the deleted account
    intro r hr cr hcr hcracc heq
    rw [eAccTasks] at hr
    rw [List.mem_filter] at hr
    obtain ⟨hr1, hrp2⟩ := hr
    rw [List.mem_filter] at hr1
    obtain ⟨hrt, hrp1⟩ := hr1
    have hrowcr : rowOk calendarsDef.cols cr = true := by
      unfold tableOk at hcalTab
      simp only [Bool.and_eq_true, List.all_eq_true] at hcalTab
      exact hcalTab.1 cr hcr
    obtain ⟨vid, hvid, hvidn⟩ := rowOk_notNull calendarsDef.cols cr "id"
      (colPK "id") (by rfl) (by rfl) hrowcr
    have hvidb : (vid == Value.null) = false := by simpa using hvidn
    rw [hvid] at heq
    have hpc : childPred calendarsDef.cols "account_id"
        ((a.filter (fun r2 => getVal accountsDef.cols r2 "id" == some aid)).filterMap
          (fun r2 => getVal accountsDef.cols r2 "id")) cr = true :=
      childPred_eq_true _ _ _ cr aid hcracc haidb (hmemA cr hcr hcracc)
    have hmemC : vid ∈ (c.filter (childPred calendarsDef.cols "account_id"
        ((a.filter (fun r2 => getVal accountsDef.cols r2 "id" == some aid)).filterMap
          (fun r2 => getVal accountsDef.cols r2 "id")))).filterMap
        (fun r2 => getVal calendarsDef.cols r2 "id") :=
      List.mem_filterMap.mpr ⟨cr, List.mem_filter.mpr ⟨hcr, hpc⟩, hvid⟩
    have hcp1 : childPred tasksDefV3.cols "calendar_id"
        ((c.filter (childPred calendarsDef.cols "account_id"
            ((a.filter (fun r2 => getVal accountsDef.cols r2 "id" == some aid)).filterMap
              (fun r2 => getVal accountsDef.cols r2 "id")))).filterMap
          (fun r2 => getVal calendarsDef.cols r2 "id")) r = true := by
      exact childPred_eq_true _ _ _ r vid heq hvidb hmemC
    rw [hcp1] at hrp1
    simp at hrp1
  · -- deleting a calendar removes every task referencing it
    intro r hr heq
    rw [eCalTasks] at hr
    rw [List.mem_filter] at hr
    obtain ⟨hrt, hrp⟩ := hr
    have hfkr := htaskFk ⟨"calendar_id", "calendars", "id", true⟩
      (by simp [tasksDefV3, tasksFks]) r hrt
    obtain ⟨pr, hprc, hprid⟩ := fkRowOk_resolves _ _ _ _ _ hfkr hftCal cid heq hcid
    have hprc2 : pr ∈ c := hprc
    have hprid2 : getVal calendarsDef.cols pr "id" = some cid := hprid
    have hmemD : cid ∈ (c.filter (fun r2 => getVal calendarsDef.cols r2 "id" == some cid)).filterMap
        (fun r2 => getVal calendarsDef.cols r2 "id") := by
      refine List.mem_filterMap.mpr ⟨pr, List.mem_filter.mpr ⟨hprc2, ?_⟩, hprid2⟩
      rw [hprid2]
      simp
    have hcp : childPred tasksDefV3.cols "calendar_id"
        ((c.filter (fun r2 => getVal calendarsDef.cols r2 "id" == some cid)).filterMap
          (fun r2 => getVal calendarsDef.cols r2 "id")) r = true := by
      exact childPred_eq_true _ _ _ r cid heq hcidb hmemD
    rw [hcp] at hrp
    simp at hrp

/-- A task row linked to account `a1` and calendar `cal-local`. -/
def taskRowLinked : Row :=
  [Value.text "t3", Value.text "u3", Value.null, Value.null, Value.text "Task",
   Value.text "", Value.int 0, Value.null, Value.null, Value.null,
   Value.text "none", Value.null, Value.null, Value.null, Value.null,
   Value.text "2024-01-01", Value.text "2024-01-01", Value.null, Value.text "[]",
   Value.null, Value.int 0, Value.int 0, Value.text "a1", Value.text "cal-local",
   Value.int 0, Value.int 0, Value.null]

/-- Witness for C5 at a concrete input: one account owning one calendar owning
one task; the hypotheses hold and deleting the account leaves no calendar
referencing it. -/
theorem c5_cascading_deletes_witness :
    dbOk (dbFinal [accountRow] [localCalendarRowLinked] [] [] [] [taskRowLinked]) = true ∧
    (∀ r ∈ rowsOf (deleteWhere
        (dbFinal [accountRow] [localCalendarRowLinked] [] [] [] [taskRowLinked]) "accounts"
        (fun r2 => getVal accountsDef.cols r2 "id" == some (Value.text "a1"))) "calendars",
      ¬ getVal calendarsDef.cols r "account_id" = some (Value.text "a1")) :=
  ⟨by rfl,
   (c5_cascading_deletes [accountRow] [localCalendarRowLinked] [] [] [] [taskRowLinked]
      (Value.text "a1") (Value.text "cal-local") (by rfl)
      (by intro h; cases h) (by intro h; cases h)).1⟩

/-! ## C9 / C10: the tray commands of `src/src-tauri/src/tray.rs` -/

/-- The tray-relevant program state: the `MENU_UPDATER` global (registered or
not, together with the menu text the registered closure writes), the
`TRAY_VISIBLE` / `TRAY_ENABLED` globals, whether a tray icon with id "main"
exists, and the outcome the platform call `set_visible` would report
(`none` = success, `some e` = error `e`). -/
structure TrayState where
  menuUpdaterRegistered : Bool
  lastSyncText : String
  trayVisible : Bool
  trayEnabled : Bool
  trayIconExists : Bool
  setVisibleOutcome : Option String
deriving DecidableEq

/-- `update_tray_sync_time`: if an updater closure is registered, invoke it
(it sets the last-sync menu item's text, discarding any `set_text` error);
always return `Ok(())`. -/
def update_tray_sync_time (st : TrayState) (time_str : String) :
    Except String Unit × TrayState :=
  if st.menuUpdaterRegistered then
    (Except.ok (), { st with lastSyncText := time_str })
  else
    (Except.ok (), st)

/-- `set_tray_visible`: look up the tray icon with id "main"; when absent,
return `Ok(())` without touching anything; when present, call `set_visible`
and propagate its error before mutating the two flags, else set both flags to
the requested value and return `Ok(())`. -/
def set_tray_visible (st : TrayState) (visible : Bool) :
    Except String Unit × TrayState :=
  if st.trayIconExists then
    match st.setVisibleOutcome with
    | some e => (Except.error e, st)
    | none => (Except.ok (), { st with trayVisible := visible, trayEnabled := visible })
  else
    (Except.ok (), st)

/-- C9: `update_tray_sync_time` returns `Ok(())` for every input string and
every state; with no registered menu updater it does nothing at all. -/
theorem c9_update_tray_sync_time_ok (st : TrayState) (time_str : String) :
    (update_tray_sync_time st time_str).1 = Except.ok () ∧
    (st.menuUpdaterRegistered = false →
      (update_tray_sync_time st time_str).2 = st) := by
  unfold update_tray_sync_time
  by_cases h : st.menuUpdaterRegistered
  · rw [if_pos h]
    exact ⟨rfl, fun h2 => absurd h (by rw [h2]; exact Bool.false_ne_true)⟩
  · rw [if_neg h]
    exact ⟨rfl, fun _ => rfl⟩

/-- The tray state before `initialize_tray` ran. -/
def trayStateUninitialized : TrayState :=
  { menuUpdaterRegistered := false, lastSyncText := "Last sync: Never",
    trayVisible := true, trayEnabled := true, trayIconExists := false,
    setVisibleOutcome := none }

/-- Witness for C9 at a concrete input: an uninitialized tray still reports
success and the state is untouched. -/
theorem c9_update_tray_sync_time_ok_witness :
    (update_tray_sync_time trayStateUninitialized "12:00").1 = Except.ok () ∧
    (update_tray_sync_time trayStateUninitialized "12:00").2 = trayStateUninitialized :=
  ⟨(c9_update_tray_sync_time_ok trayStateUninitialized "12:00").1,
   (c9_update_tray_sync_time_ok trayStateUninitialized "12:00").2 rfl⟩

/-- C10: when no tray icon with id "main" exists, `set_tray_visible` returns
`Ok(())` and leaves the state (in particular `TRAY_VISIBLE` / `TRAY_ENABLED`)
unchanged; when the lookup succeeds but `set_visible` fails, the error is
returned and the state is unchanged; the flags are mutated only when both
succeed, and then both are set to the requested value with everything else
unchanged. -/
theorem c10_set_tray_visible_frame (st : TrayState) (visible : Bool) :
    (st.trayIconExists = false →
      set_tray_visible st visible = (Except.ok (), st)) ∧
    (∀ e, st.trayIconExists = true → st.setVisibleOutcome = some e →
      set_tray_visible st visible = (Except.error e, st)) ∧
    (st.trayIconExists = true → st.setVisibleOutcome = none →
      (set_tray_visible st visible).1 = Except.ok () ∧
      (set_tray_visible st visible).2.trayVisible = visible ∧
      (set_tray_visible st visible).2.trayEnabled = visible ∧
      (set_tray_visible st visible).2.menuUpdaterRegistered = st.menuUpdaterRegistered ∧
      (set_tray_visible st visible).2.lastSyncText = st.lastSyncText ∧
      (set_tray_visible st visible).2.trayIconExists = st.trayIconExists ∧
      (set_tray_visible st visible).2.setVisibleOutcome = st.setVisibleOutcome) := by
  refine ⟨?_, ?_, ?_⟩
  · intro h
    unfold set_tray_visible
    rw [h]
    simp
  · intro e h1 h2
    unfold set_tray_visible
    rw [h1, h2]
    simp
  · intro h1 h2
    unfold set_tray_visible
    rw [h1, h2]
    simp

/-- Witness for C10 at concrete inputs: with no "main" tray icon the call is a
no-op success, and with an existing icon and a succeeding platform call both
flags take the requested value. -/
theorem c10_set_tray_visible_frame_witness :
    set_tray_visible trayStateUninitialized false = (Except.ok (), trayStateUninitialized) ∧
    (set_tray_visible { trayStateUninitialized with trayIconExists := true } false).2.trayVisible
      = false ∧
    (set_tray_visible { trayStateUninitialized with trayIconExists := true } false).2.trayEnabled
      = false :=
  ⟨(c10_set_tray_visible_frame trayStateUninitialized false).1 rfl,
   ((c10_set_tray_visible_frame { trayStateUninitialized with trayIconExists := true }
      false).2.2 rfl rfl).2.1,
   ((c10_set_tray_visible_frame { trayStateUninitialized with trayIconExists := true }
      false).2.2 rfl rfl).2.2.1⟩

end CaldavTasks
